import Mathlib

/-!
Shallow embedding of `pipe-while-read` (src/src/main.rs): a line dispatcher
that reads standard input line by line and, per line, either prints a dry-run
description or spawns `exe` with `fixed_args` plus the line appended, tracking
the most recent child exit code in `last_status` and exiting with it.
-/

namespace PipeWhileRead

/-- The resolved invocation spec: `exe` (from `parts.remove(0)`),
`fixed_args` (the remaining positional tokens) and the `--dry-run` flag. -/
structure Config where
  exe : String
  fixed_args : List String
  dry_run : Bool
deriving DecidableEq, Repr

/-- Outcome of an awaited child process, as visible through
`std::process::ExitStatus` on Unix: either a normal exit carrying a code,
or termination by a signal (no code available). -/
inductive ExitStatus
  | exited (code : Int)
  | signaled (sig : Int)
deriving DecidableEq, Repr

/-- `ExitStatus::code()`: `Some(code)` on normal exit, `None` on a signal. -/
def ExitStatus.code : ExitStatus → Option Int
  | .exited c => some c
  | .signaled _ => none

/-- `ExitStatus::success()`: true exactly when the process exited normally
with code 0. -/
def ExitStatus.success : ExitStatus → Bool
  | .exited c => c == 0
  | .signaled _ => false

/-- The `Display` rendering of `ExitStatus` (Unix `std`): `exit status: c`
for a normal exit, `signal: s` for a signal termination. Used only inside
the `command exited with {}` diagnostic. -/
def ExitStatus.display : ExitStatus → String
  | .exited c => "exit status: " ++ toString c
  | .signaled s => "signal: " ++ toString s

/-- A line read from stdin can fail to decode (`lines()` yields
`io::Result<String>`; the `?` on `line_res` makes that fatal). -/
inductive DecodeErr
  | invalidUtf8
deriving DecidableEq, Repr

/-- `Command::status()` can fail to launch the executable at all
(not found, permission denied); the `?` makes that fatal. -/
inductive LaunchErr
  | notFound
deriving DecidableEq, Repr

/-- Record of one successfully spawned child: the program, its full argument
vector, and whether its stdin was redirected to the null device
(`.stdin(Stdio::null())`). -/
structure SpawnRec where
  exe : String
  args : List String
  stdin_null : Bool
deriving DecidableEq, Repr

/-- How the dispatch loop ended: end of input with the final `last_status`,
or one of the two fatal early returns. -/
inductive LoopResult
  | done (last : Option Int)
  | fatalDecode
  | fatalLaunch
deriving DecidableEq, Repr

/-- Observable behaviour of one run: the dispatcher's own stdout lines
(`println!`), its own stderr lines (`eprintln!`), the children it spawned
(in order), and how the loop ended. -/
structure LoopOut where
  stdout : List String
  stderr : List String
  spawns : List SpawnRec
  result : LoopResult
deriving DecidableEq, Repr

/-- The dry-run description line:
`println!("[DRY RUN] {} {}", exe, line)` when `fixed_args.is_empty()`,
otherwise `println!("[DRY RUN] {} {} {}", exe, fixed_args.join(" "), line)`. -/
def dryLine (exe : String) (fixed_args : List String) (line : String) : String :=
  if fixed_args.isEmpty then
    "[DRY RUN] " ++ exe ++ " " ++ line
  else
    "[DRY RUN] " ++ exe ++ " " ++ String.intercalate " " fixed_args ++ " " ++ line

/-- The `for line_res in stdin.lock().lines()` loop of `main`.

The environment is modelled by two inputs: the decoded line stream
(`List (Except DecodeErr String)`), and a spawn oracle `spawn` giving the
outcome of the `k`-th `Command::status()` call (launch failure or an awaited
`ExitStatus`). `k` counts spawns so far; `last` is the running `last_status`.

Per ok line: if `dry_run`, print the description and continue (no spawn);
otherwise spawn `exe` with `fixed_args ++ [line]` and null stdin, set
`last_status = status.code()`, and emit `command exited with {status}` on
stderr when `!status.success()`. A decode or launch error returns from
`main` at once via `?`. -/
def runLoop (cfg : Config) (spawn : Nat → Except LaunchErr ExitStatus) :
    List (Except DecodeErr String) → Nat → Option Int → LoopOut
  | [], _, last => ⟨[], [], [], .done last⟩
  | Except.error _ :: _, _, _ => ⟨[], [], [], .fatalDecode⟩
  | Except.ok line :: rest, k, last =>
    if cfg.dry_run then
      let out := runLoop cfg spawn rest k last
      { out with stdout := dryLine cfg.exe cfg.fixed_args line :: out.stdout }
    else
      match spawn k with
      | Except.error _ => ⟨[], [], [], .fatalLaunch⟩
      | Except.ok st =>
        let out := runLoop cfg spawn rest (k + 1) st.code
        { out with
          spawns := ⟨cfg.exe, cfg.fixed_args ++ [line], true⟩ :: out.spawns,
          stderr :=
            (if st.success then [] else ["command exited with " ++ st.display])
              ++ out.stderr }

/-- A whole run of `main` after argument parsing: the loop starts with
`last_status = None` and spawn count 0. -/
def pipeWhileRead (cfg : Config) (spawn : Nat → Except LaunchErr ExitStatus)
    (input : List (Except DecodeErr String)) : LoopOut :=
  runLoop cfg spawn input 0 none

/-- The process's own final exit, from the tail of `main`:
`std::process::exit(code)` when `last_status` is `Some(code)`, a plain
`Ok(())` (exit code 0) when it is `None`, and an `Err` return (the `anyhow`
fatal path) on either fatal condition. -/
inductive ExitResult
  | code (c : Int)
  | fatalDecode
  | fatalLaunch
deriving DecidableEq, Repr

/-- Map the loop result to the process's exit. -/
def exitOf : LoopResult → ExitResult
  | .done (some c) => .code c
  | .done none => .code 0
  | .fatalDecode => .fatalDecode
  | .fatalLaunch => .fatalLaunch

/-- The numeric exit code the operating system sees: the code passed to
`std::process::exit`, 0 for `Ok(())`, and 1 when `main` returns `Err`
(the Rust `Termination` impl for `Result`). -/
def exitCodeNum : ExitResult → Int
  | .code c => c
  | .fatalDecode => 1
  | .fatalLaunch => 1

/-! ### Line splitting (`BufRead::lines`)

`stdin.lock().lines()` reads up to each `'\n'`; each yielded string has a
trailing `'\n'` removed and, only when that `'\n'` was present, one trailing
`'\r'` removed as well; a final chunk with no terminator is yielded as read;
an empty buffer at end of input ends the iteration. Modelled on `List Char`. -/

/-- Split on the newline character, keeping empty pieces (so an input of
`n` newlines yields `n + 1` pieces). -/
def splitNewline : List Char → List (List Char)
  | [] => [[]]
  | c :: cs =>
    if c = '\n' then [] :: splitNewline cs
    else
      match splitNewline cs with
      | p :: ps => (c :: p) :: ps
      | [] => [[c]]

/-- Remove one trailing carriage return, if present
(`if buf.ends_with('\r') { buf.pop(); }`). -/
def stripCR (l : List Char) : List Char :=
  if l.getLast? = some '\r' then l.dropLast else l

/-- Reassemble the pieces of `splitNewline` into the lines `lines()` yields:
every `'\n'`-terminated piece has one trailing `'\r'` stripped; the final
piece is dropped when empty (input ended in `'\n'` or was empty) and kept
verbatim otherwise (unterminated final chunk, `'\r'` retained). -/
def rustLinesAux : List (List Char) → List (List Char)
  | [] => []
  | [last] => if last = [] then [] else [last]
  | p :: ps => stripCR p :: rustLinesAux ps

/-- The line sequence `lines()` yields for a fully valid-text input. -/
def rustLines (input : List Char) : List (List Char) :=
  rustLinesAux (splitNewline input)

/-! ### Concrete scenarios used as counterexamples and witnesses -/

/-- Execute-mode configuration used in concrete runs. -/
def cfgExec : Config := ⟨"cmd", [], false⟩

/-- Dry-run configuration used in concrete runs. -/
def cfgDry : Config := ⟨"echo", ["Got:"], true⟩

/-- Spawn oracle: the first child exits with code 5, the second is killed by
signal 9, later ones exit 0. -/
def spawnSig : Nat → Except LaunchErr ExitStatus
  | 0 => Except.ok (ExitStatus.exited 5)
  | 1 => Except.ok (ExitStatus.signaled 9)
  | _ => Except.ok (ExitStatus.exited 0)

/-- Spawn oracle: every launch fails (executable not found). -/
def spawnFail : Nat → Except LaunchErr ExitStatus :=
  fun _ => Except.error LaunchErr.notFound

/-- Spawn oracle: every child exits with code 0. -/
def spawnOk : Nat → Except LaunchErr ExitStatus :=
  fun _ => Except.ok (ExitStatus.exited 0)

/-! ### Unfolding lemmas for the loop -/

theorem runLoop_nil (cfg : Config) (spawn : Nat → Except LaunchErr ExitStatus)
    (k : Nat) (last : Option Int) :
    runLoop cfg spawn [] k last = ⟨[], [], [], .done last⟩ := rfl

theorem runLoop_decode_err (cfg : Config) (spawn : Nat → Except LaunchErr ExitStatus)
    (e : DecodeErr) (rest : List (Except DecodeErr String)) (k : Nat) (last : Option Int) :
    runLoop cfg spawn (Except.error e :: rest) k last = ⟨[], [], [], .fatalDecode⟩ := rfl

theorem runLoop_dry_cons (cfg : Config) (spawn : Nat → Except LaunchErr ExitStatus)
    (line : String) (rest : List (Except DecodeErr String)) (k : Nat) (last : Option Int)
    (hd : cfg.dry_run = true) :
    runLoop cfg spawn (Except.ok line :: rest) k last =
      ⟨dryLine cfg.exe cfg.fixed_args line :: (runLoop cfg spawn rest k last).stdout,
       (runLoop cfg spawn rest k last).stderr,
       (runLoop cfg spawn rest k last).spawns,
       (runLoop cfg spawn rest k last).result⟩ := by
  simp [runLoop, hd]

theorem runLoop_launch_err (cfg : Config) (spawn : Nat → Except LaunchErr ExitStatus)
    (line : String) (rest : List (Except DecodeErr String)) (k : Nat) (last : Option Int)
    (le : LaunchErr) (hd : cfg.dry_run = false) (he : spawn k = Except.error le) :
    runLoop cfg spawn (Except.ok line :: rest) k last = ⟨[], [], [], .fatalLaunch⟩ := by
  simp [runLoop, hd, he]

theorem runLoop_exec_ok (cfg : Config) (spawn : Nat → Except LaunchErr ExitStatus)
    (line : String) (rest : List (Except DecodeErr String)) (k : Nat) (last : Option Int)
    (st : ExitStatus) (hd : cfg.dry_run = false) (hs : spawn k = Except.ok st) :
    runLoop cfg spawn (Except.ok line :: rest) k last =
      ⟨(runLoop cfg spawn rest (k + 1) st.code).stdout,
       (if st.success then [] else ["command exited with " ++ st.display])
         ++ (runLoop cfg spawn rest (k + 1) st.code).stderr,
       ⟨cfg.exe, cfg.fixed_args ++ [line], true⟩
         :: (runLoop cfg spawn rest (k + 1) st.code).spawns,
       (runLoop cfg spawn rest (k + 1) st.code).result⟩ := by
  simp [runLoop, hd, hs]

/-! ### Structural lemmas -/

/-- In dry-run mode a run over decoded lines prints exactly one description
per line, touches nothing else, and leaves `last_status` unchanged. -/
theorem runLoop_dry_map (cfg : Config) (spawn : Nat → Except LaunchErr ExitStatus)
    (hd : cfg.dry_run = true) :
    ∀ (lines : List String) (k : Nat) (last : Option Int),
      runLoop cfg spawn (lines.map Except.ok) k last =
        ⟨lines.map (dryLine cfg.exe cfg.fixed_args), [], [], .done last⟩ := by
  intro lines
  induction lines with
  | nil => intro k last; rfl
  | cons l ls ih =>
      intro k last
      rw [List.map_cons, runLoop_dry_cons cfg spawn l _ k last hd, ih k last]
      rfl

/-- In dry-run mode the spawn oracle is never consulted. -/
theorem runLoop_dry_spawn_irrel (cfg : Config)
    (spawn₁ spawn₂ : Nat → Except LaunchErr ExitStatus) (hd : cfg.dry_run = true) :
    ∀ (input : List (Except DecodeErr String)) (k : Nat) (last : Option Int),
      runLoop cfg spawn₁ input k last = runLoop cfg spawn₂ input k last := by
  intro input
  induction input with
  | nil => intro k last; rfl
  | cons x rest ih =>
      intro k last
      cases x with
      | error e => rfl
      | ok line =>
          rw [runLoop_dry_cons cfg spawn₁ line rest k last hd,
            runLoop_dry_cons cfg spawn₂ line rest k last hd, ih k last]

/-- In dry-run mode no child is ever spawned, whatever the input. -/
theorem runLoop_dry_spawns_nil (cfg : Config) (spawn : Nat → Except LaunchErr ExitStatus)
    (hd : cfg.dry_run = true) :
    ∀ (input : List (Except DecodeErr String)) (k : Nat) (last : Option Int),
      (runLoop cfg spawn input k last).spawns = [] := by
  intro input
  induction input with
  | nil => intro k last; rfl
  | cons x rest ih =>
      intro k last
      cases x with
      | error e => rfl
      | ok line => rw [runLoop_dry_cons cfg spawn line rest k last hd]; exact ih k last

/-- In dry-run mode the loop either finishes with `last_status` untouched or
dies on a decode error. -/
theorem runLoop_dry_result (cfg : Config) (spawn : Nat → Except LaunchErr ExitStatus)
    (hd : cfg.dry_run = true) :
    ∀ (input : List (Except DecodeErr String)) (k : Nat) (last : Option Int),
      (runLoop cfg spawn input k last).result = .done last ∨
        (runLoop cfg spawn input k last).result = .fatalDecode := by
  intro input
  induction input with
  | nil => intro k last; exact Or.inl rfl
  | cons x rest ih =>
      intro k last
      cases x with
      | error e => exact Or.inr rfl
      | ok line => rw [runLoop_dry_cons cfg spawn line rest k last hd]; exact ih k last

/-- `last_status` can only change in the execute-and-record branch: a run
that spawned nothing and completed ends with `last_status` as it began. -/
theorem runLoop_no_spawn_last (cfg : Config) (spawn : Nat → Except LaunchErr ExitStatus) :
    ∀ (input : List (Except DecodeErr String)) (k : Nat) (last : Option Int) (ls : Option Int),
      (runLoop cfg spawn input k last).spawns = [] →
      (runLoop cfg spawn input k last).result = .done ls → ls = last := by
  intro input
  induction input with
  | nil =>
      intro k last ls _ hr
      simp only [runLoop_nil] at hr
      cases hr; rfl
  | cons x rest ih =>
      intro k last ls hsp hr
      cases x with
      | error e =>
          rw [runLoop_decode_err] at hr
          exact absurd hr (by simp)
      | ok line =>
          by_cases hd : cfg.dry_run
          · rw [runLoop_dry_cons cfg spawn line rest k last hd] at hsp hr
            exact ih k last ls hsp hr
          · rw [Bool.not_eq_true] at hd
            cases hsk : spawn k with
            | error le =>
                rw [runLoop_launch_err cfg spawn line rest k last le hd hsk] at hr
                simp at hr
            | ok st =>
                rw [runLoop_exec_ok cfg spawn line rest k last st hd hsk] at hsp
                simp at hsp

/-- If every awaited child has no exit code (all killed by signals), a
completed run that started with `last_status` empty ends with it empty. -/
theorem runLoop_nocode (cfg : Config) (spawn : Nat → Except LaunchErr ExitStatus)
    (hc : ∀ i st, spawn i = Except.ok st → st.code = none) :
    ∀ (input : List (Except DecodeErr String)) (k : Nat) (last : Option Int) (ls : Option Int),
      (runLoop cfg spawn input k last).result = .done ls → ls = last ∨ ls = none := by
  intro input
  induction input with
  | nil =>
      intro k last ls hr
      simp only [runLoop_nil] at hr
      cases hr; exact Or.inl rfl
  | cons x rest ih =>
      intro k last ls hr
      cases x with
      | error e =>
          rw [runLoop_decode_err] at hr
          exact absurd hr (by simp)
      | ok line =>
          by_cases hd : cfg.dry_run
          · rw [runLoop_dry_cons cfg spawn line rest k last hd] at hr
            exact ih k last ls hr
          · rw [Bool.not_eq_true] at hd
            cases hsk : spawn k with
            | error le =>
                rw [runLoop_launch_err cfg spawn line rest k last le hd hsk] at hr
                simp at hr
            | ok st =>
                rw [runLoop_exec_ok cfg spawn line rest k last st hd hsk] at hr
                rcases ih (k + 1) st.code ls hr with h | h
                · rw [hc k st hsk] at h; exact Or.inr h
                · exact Or.inr h

/-- In execute mode with every launch succeeding, the run spawns exactly one
child per decoded line, with `fixed_args` then the line as argument vector
and stdin nulled. -/
theorem runLoop_exec_spawns (cfg : Config) (spawn : Nat → Except LaunchErr ExitStatus)
    (hd : cfg.dry_run = false) (hsp : ∀ i, ∃ st, spawn i = Except.ok st) :
    ∀ (lines : List String) (k : Nat) (last : Option Int),
      (runLoop cfg spawn (lines.map Except.ok) k last).spawns =
        lines.map (fun l => ⟨cfg.exe, cfg.fixed_args ++ [l], true⟩) := by
  intro lines
  induction lines with
  | nil => intro k last; rfl
  | cons l ls ih =>
      intro k last
      obtain ⟨st, hst⟩ := hsp k
      rw [List.map_cons, runLoop_exec_ok cfg spawn l _ k last st hd hst, List.map_cons]
      simp only [ih (k + 1) st.code]

/-! ### Lemmas on line splitting -/

theorem splitNewline_ne_nil : ∀ xs : List Char, splitNewline xs ≠ [] := by
  intro xs
  induction xs with
  | nil => simp [splitNewline]
  | cons c cs ih =>
      simp only [splitNewline]
      split
      · simp
      · split
        · simp
        · simp

theorem splitNewline_no_newline : ∀ l : List Char, '\n' ∉ l → splitNewline l = [l] := by
  intro l
  induction l with
  | nil => intro _; rfl
  | cons c cs ih =>
      intro h
      have hc : ¬ c = '\n' := fun hh => h (by rw [hh]; exact List.mem_cons_self _ _)
      have hcs : '\n' ∉ cs := fun hh => h (List.mem_cons_of_mem c hh)
      simp only [splitNewline, if_neg hc, ih hcs]

theorem splitNewline_append (l rest : List Char) (hl : '\n' ∉ l) :
    splitNewline (l ++ '\n' :: rest) = l :: splitNewline rest := by
  induction l with
  | nil => simp [splitNewline]
  | cons c cs ih =>
      have hc : ¬ c = '\n' := fun hh => hl (by rw [hh]; exact List.mem_cons_self _ _)
      have hcs : '\n' ∉ cs := fun hh => hl (List.mem_cons_of_mem c hh)
      simp only [List.cons_append, splitNewline, if_neg hc, List.append_eq, ih hcs]

theorem stripCR_append_cr (m : List Char) : stripCR (m ++ ['\r']) = m := by
  simp [stripCR, List.getLast?_concat, List.dropLast_concat]

theorem stripCR_no_cr (m : List Char) (h : '\r' ∉ m) : stripCR m = m := by
  rw [stripCR, if_neg]
  intro hg
  obtain ⟨hne, heq⟩ := List.mem_getLast?_eq_getLast (Option.mem_def.mpr hg)
  exact h (heq ▸ List.getLast_mem hne)

theorem rustLines_append (l rest : List Char) (hl : '\n' ∉ l) :
    rustLines (l ++ '\n' :: rest) = stripCR l :: rustLines rest := by
  rw [rustLines, splitNewline_append l rest hl, rustLines]
  obtain ⟨p, ps, hps⟩ := List.exists_cons_of_ne_nil (splitNewline_ne_nil rest)
  rw [hps]
  rfl

theorem rustLines_no_newline (l : List Char) (hl : '\n' ∉ l) (hne : l ≠ []) :
    rustLines l = [l] := by
  rw [rustLines, splitNewline_no_newline l hl]
  simp [rustLinesAux, hne]

/-! ### The claims -/

/-- C1, counterexample: the claim says an abnormal termination leaves Last
Status at its previous value. Run two lines where child 0 exits with code 5
and child 1 is killed by a signal: the claim predicts Last Status `some 5`
and final exit code 5, but `last_status = status.code()` overwrites it with
`None`, so the loop ends with Last Status unset and the process exits 0. -/
theorem claim_C1_counterexample :
    (pipeWhileRead cfgExec spawnSig [Except.ok "a", Except.ok "b"]).result
        = LoopResult.done none
  ∧ (pipeWhileRead cfgExec spawnSig [Except.ok "a", Except.ok "b"]).result
        ≠ LoopResult.done (some 5)
  ∧ exitOf (pipeWhileRead cfgExec spawnSig [Except.ok "a", Except.ok "b"]).result
        = ExitResult.code 0 := by
  refine ⟨rfl, ?_, rfl⟩
  decide

/-- C1 (amended): after every executed command, Last Status is assigned the
command's `code()` outright — the previous value is discarded, and an
abnormal termination with no exit code resets Last Status to unset rather
than leaving it at its previous value. -/
theorem claim_C1 (cfg : Config) (spawn : Nat → Except LaunchErr ExitStatus)
    (k : Nat) (last₁ last₂ : Option Int) (line : String)
    (rest : List (Except DecodeErr String)) (st : ExitStatus)
    (hd : cfg.dry_run = false) (hs : spawn k = Except.ok st) :
    runLoop cfg spawn (Except.ok line :: rest) k last₁
      = runLoop cfg spawn (Except.ok line :: rest) k last₂
  ∧ (runLoop cfg spawn [Except.ok line] k last₁).result = LoopResult.done st.code := by
  constructor
  · rw [runLoop_exec_ok cfg spawn line rest k last₁ st hd hs,
      runLoop_exec_ok cfg spawn line rest k last₂ st hd hs]
  · rw [runLoop_exec_ok cfg spawn line [] k last₁ st hd hs]
    simp only [runLoop_nil]

/-- Witness for C1 (amended) at a concrete signal-killed child. -/
theorem claim_C1_witness :
    cfgExec.dry_run = false
  ∧ spawnSig 1 = Except.ok (ExitStatus.signaled 9)
  ∧ (runLoop cfgExec spawnSig [Except.ok "b"] 1 (some 5)
        = runLoop cfgExec spawnSig [Except.ok "b"] 1 none
     ∧ (runLoop cfgExec spawnSig [Except.ok "b"] 1 (some 5)).result
        = LoopResult.done (ExitStatus.signaled 9).code) :=
  ⟨rfl, rfl,
    claim_C1 cfgExec spawnSig 1 (some 5) none "b" [] (ExitStatus.signaled 9) rfl rfl⟩

/-- C2: a run that reaches end of input exits with the code held in Last
Status (`std::process::exit(code)`), or 0 when Last Status holds nothing;
Last Status is unset on empty input, in dry-run mode, and when no child
ever produced a code. -/
theorem claim_C2 (cfg : Config) (spawn : Nat → Except LaunchErr ExitStatus)
    (input : List (Except DecodeErr String)) (ls : Option Int)
    (h : (pipeWhileRead cfg spawn input).result = LoopResult.done ls) :
    exitOf (pipeWhileRead cfg spawn input).result = ExitResult.code (ls.getD 0)
  ∧ (ls = none → exitOf (pipeWhileRead cfg spawn input).result = ExitResult.code 0)
  ∧ (input = [] → ls = none)
  ∧ (cfg.dry_run = true → ls = none)
  ∧ ((∀ i st, spawn i = Except.ok st → st.code = none) → ls = none) := by
  refine ⟨?_, ?_, ?_, ?_, ?_⟩
  · rw [h]; cases ls <;> rfl
  · intro hn; rw [h, hn]; rfl
  · intro hi
    subst hi
    rw [pipeWhileRead, runLoop_nil] at h
    injection h with h
    exact h.symm
  · intro hd
    rw [pipeWhileRead] at h
    rcases runLoop_dry_result cfg spawn hd input 0 none with hh | hh
    · rw [h] at hh; simpa using hh
    · rw [h] at hh; exact absurd hh (by simp)
  · intro hc
    rw [pipeWhileRead] at h
    rcases runLoop_nocode cfg spawn hc input 0 none ls h with hh | hh <;> exact hh

/-- Witness for C2 on a concrete run whose last child exited with code 5. -/
theorem claim_C2_witness :
    exitOf (pipeWhileRead cfgExec spawnSig [Except.ok "a"]).result
        = ExitResult.code ((some (5 : Int)).getD 0)
  ∧ (some (5 : Int) = none →
        exitOf (pipeWhileRead cfgExec spawnSig [Except.ok "a"]).result = ExitResult.code 0)
  ∧ (([Except.ok "a"] : List (Except DecodeErr String)) = [] → some (5 : Int) = none)
  ∧ (cfgExec.dry_run = true → some (5 : Int) = none)
  ∧ ((∀ i st, spawnSig i = Except.ok st → st.code = none) → some (5 : Int) = none) :=
  claim_C2 cfgExec spawnSig [Except.ok "a"] (some 5) rfl

/-- C3: in dry-run mode a run over N decoded lines spawns nothing, writes
nothing to stderr, and prints exactly N description lines, each of the form
`[DRY RUN] <executable> <fixed_args joined by single spaces> <line>`, the
fixed-args segment and its trailing space omitted when `fixed_args` is
empty. -/
theorem claim_C3 (cfg : Config) (spawn : Nat → Except LaunchErr ExitStatus)
    (lines : List String) (hd : cfg.dry_run = true) :
    pipeWhileRead cfg spawn (lines.map Except.ok)
      = ⟨lines.map (dryLine cfg.exe cfg.fixed_args), [], [], LoopResult.done none⟩
  ∧ (pipeWhileRead cfg spawn (lines.map Except.ok)).stdout.length = lines.length
  ∧ (pipeWhileRead cfg spawn (lines.map Except.ok)).spawns = []
  ∧ (∀ line, cfg.fixed_args = [] →
      dryLine cfg.exe cfg.fixed_args line = "[DRY RUN] " ++ cfg.exe ++ " " ++ line)
  ∧ (∀ line, cfg.fixed_args ≠ [] →
      dryLine cfg.exe cfg.fixed_args line
        = "[DRY RUN] " ++ cfg.exe ++ " "
            ++ String.intercalate " " cfg.fixed_args ++ " " ++ line) := by
  have hm := runLoop_dry_map cfg spawn hd lines 0 none
  have hm' : pipeWhileRead cfg spawn (lines.map Except.ok)
      = ⟨lines.map (dryLine cfg.exe cfg.fixed_args), [], [], LoopResult.done none⟩ := hm
  refine ⟨hm', ?_, ?_, ?_, ?_⟩
  · rw [hm']; simp
  · rw [hm']
  · intro line hfa
    simp [dryLine, hfa]
  · intro line hfa
    simp only [dryLine, List.isEmpty_iff, if_neg hfa]

/-- Witness for C3 on a two-line dry run with one fixed argument. -/
theorem claim_C3_witness :
    pipeWhileRead cfgDry spawnFail (["foo", "bar"].map Except.ok)
      = ⟨["foo", "bar"].map (dryLine cfgDry.exe cfgDry.fixed_args), [], [],
         LoopResult.done none⟩
  ∧ (pipeWhileRead cfgDry spawnFail (["foo", "bar"].map Except.ok)).stdout.length
      = (["foo", "bar"] : List String).length
  ∧ (pipeWhileRead cfgDry spawnFail (["foo", "bar"].map Except.ok)).spawns = []
  ∧ (∀ line, cfgDry.fixed_args = [] →
      dryLine cfgDry.exe cfgDry.fixed_args line
        = "[DRY RUN] " ++ cfgDry.exe ++ " " ++ line)
  ∧ (∀ line, cfgDry.fixed_args ≠ [] →
      dryLine cfgDry.exe cfgDry.fixed_args line
        = "[DRY RUN] " ++ cfgDry.exe ++ " "
            ++ String.intercalate " " cfgDry.fixed_args ++ " " ++ line) :=
  claim_C3 cfgDry spawnFail ["foo", "bar"] rfl

/-- C4: in execute mode with every launch succeeding, exactly one child is
spawned per decoded line, its argument vector is `fixed_args` followed by the
raw line as one final argument, and its stdin is the null device rather than
the dispatcher's own stdin. -/
theorem claim_C4 (cfg : Config) (spawn : Nat → Except LaunchErr ExitStatus)
    (lines : List String) (hd : cfg.dry_run = false)
    (hsp : ∀ i, ∃ st, spawn i = Except.ok st) :
    (pipeWhileRead cfg spawn (lines.map Except.ok)).spawns
      = lines.map (fun l => ⟨cfg.exe, cfg.fixed_args ++ [l], true⟩)
  ∧ (pipeWhileRead cfg spawn (lines.map Except.ok)).spawns.length = lines.length
  ∧ (∀ r ∈ (pipeWhileRead cfg spawn (lines.map Except.ok)).spawns,
      r.stdin_null = true ∧ r.exe = cfg.exe) := by
  have hm := runLoop_exec_spawns cfg spawn hd hsp lines 0 none
  have hm' : (pipeWhileRead cfg spawn (lines.map Except.ok)).spawns
      = lines.map (fun l => ⟨cfg.exe, cfg.fixed_args ++ [l], true⟩) := hm
  refine ⟨hm', ?_, ?_⟩
  · rw [hm']; simp
  · rw [hm']
    intro r hr
    rcases List.mem_map.mp hr with ⟨l, _, heq⟩
    rw [← heq]
    exact ⟨rfl, rfl⟩

/-- Witness for C4 on a run whose second line looks like a flag. -/
theorem claim_C4_witness :
    (pipeWhileRead cfgExec spawnOk (["x", "-y"].map Except.ok)).spawns
      = (["x", "-y"] : List String).map
          (fun l => ⟨cfgExec.exe, cfgExec.fixed_args ++ [l], true⟩)
  ∧ (pipeWhileRead cfgExec spawnOk (["x", "-y"].map Except.ok)).spawns.length
      = (["x", "-y"] : List String).length
  ∧ (∀ r ∈ (pipeWhileRead cfgExec spawnOk (["x", "-y"].map Except.ok)).spawns,
      r.stdin_null = true ∧ r.exe = cfgExec.exe) :=
  claim_C4 cfgExec spawnOk ["x", "-y"] rfl (fun _ => ⟨ExitStatus.exited 0, rfl⟩)

/-- C5: a decode error or a launch error aborts the loop at once (nothing
after it is processed) and surfaces as a fatal exit that is non-zero and is
not a relayed child code; any awaited child status, by contrast, lets the
loop continue with the next line. -/
theorem claim_C5 (cfg : Config) (spawn : Nat → Except LaunchErr ExitStatus)
    (k : Nat) (last : Option Int) (line : String) (e : DecodeErr) (le : LaunchErr)
    (st : ExitStatus) (rest : List (Except DecodeErr String))
    (hd : cfg.dry_run = false) :
    runLoop cfg spawn (Except.error e :: rest) k last = ⟨[], [], [], .fatalDecode⟩
  ∧ (spawn k = Except.error le →
      runLoop cfg spawn (Except.ok line :: rest) k last = ⟨[], [], [], .fatalLaunch⟩)
  ∧ exitOf LoopResult.fatalDecode = ExitResult.fatalDecode
  ∧ exitOf LoopResult.fatalLaunch = ExitResult.fatalLaunch
  ∧ exitCodeNum ExitResult.fatalDecode ≠ 0
  ∧ exitCodeNum ExitResult.fatalLaunch ≠ 0
  ∧ (∀ c : Int, ExitResult.fatalDecode ≠ ExitResult.code c
      ∧ ExitResult.fatalLaunch ≠ ExitResult.code c)
  ∧ (spawn k = Except.ok st →
      (runLoop cfg spawn (Except.ok line :: rest) k last).result
        = (runLoop cfg spawn rest (k + 1) st.code).result) := by
  refine ⟨rfl, ?_, rfl, rfl, by decide, by decide, ?_, ?_⟩
  · intro he
    exact runLoop_launch_err cfg spawn line rest k last le hd he
  · intro c
    exact ⟨fun h => ExitResult.noConfusion h, fun h => ExitResult.noConfusion h⟩
  · intro hs
    rw [runLoop_exec_ok cfg spawn line rest k last st hd hs]

/-- Witness for C5 at a concrete decode error, launch failure and child. -/
theorem claim_C5_witness :
    cfgExec.dry_run = false
  ∧ (runLoop cfgExec spawnFail [Except.error DecodeErr.invalidUtf8, Except.ok "z"] 0 none
        = ⟨[], [], [], .fatalDecode⟩
     ∧ (spawnFail 0 = Except.error LaunchErr.notFound →
          runLoop cfgExec spawnFail [Except.ok "a", Except.ok "z"] 0 none
            = ⟨[], [], [], .fatalLaunch⟩)
     ∧ exitOf LoopResult.fatalDecode = ExitResult.fatalDecode
     ∧ exitOf LoopResult.fatalLaunch = ExitResult.fatalLaunch
     ∧ exitCodeNum ExitResult.fatalDecode ≠ 0
     ∧ exitCodeNum ExitResult.fatalLaunch ≠ 0
     ∧ (∀ c : Int, ExitResult.fatalDecode ≠ ExitResult.code c
          ∧ ExitResult.fatalLaunch ≠ ExitResult.code c)
     ∧ (spawnFail 0 = Except.ok (ExitStatus.exited 7) →
          (runLoop cfgExec spawnFail [Except.ok "a", Except.ok "z"] 0 none).result
            = (runLoop cfgExec spawnFail [Except.ok "z"] 1
                (ExitStatus.exited 7).code).result)) :=
  ⟨rfl, claim_C5 cfgExec spawnFail 0 none "a" DecodeErr.invalidUtf8 LaunchErr.notFound
    (ExitStatus.exited 7) [Except.ok "z"] rfl⟩

/-- C6: an awaited child that did not succeed contributes exactly one stderr
line `command exited with <status-description>` and the loop continues; a
successful child contributes no diagnostic. -/
theorem claim_C6 (cfg : Config) (spawn : Nat → Except LaunchErr ExitStatus)
    (k : Nat) (last : Option Int) (line : String)
    (rest : List (Except DecodeErr String)) (st : ExitStatus)
    (hd : cfg.dry_run = false) (hs : spawn k = Except.ok st) :
    (st.success = false →
      (runLoop cfg spawn (Except.ok line :: rest) k last).stderr
        = ("command exited with " ++ st.display)
            :: (runLoop cfg spawn rest (k + 1) st.code).stderr)
  ∧ (st.success = true →
      (runLoop cfg spawn (Except.ok line :: rest) k last).stderr
        = (runLoop cfg spawn rest (k + 1) st.code).stderr)
  ∧ (runLoop cfg spawn (Except.ok line :: rest) k last).result
      = (runLoop cfg spawn rest (k + 1) st.code).result := by
  rw [runLoop_exec_ok cfg spawn line rest k last st hd hs]
  refine ⟨?_, ?_, rfl⟩
  · intro hsu; simp [hsu]
  · intro hsu; simp [hsu]

/-- Witness for C6 at a child that exited with the non-zero code 5. -/
theorem claim_C6_witness :
    cfgExec.dry_run = false
  ∧ spawnSig 0 = Except.ok (ExitStatus.exited 5)
  ∧ ((ExitStatus.exited 5).success = false →
      (runLoop cfgExec spawnSig [Except.ok "a"] 0 none).stderr
        = ("command exited with " ++ (ExitStatus.exited 5).display)
            :: (runLoop cfgExec spawnSig [] 1 (ExitStatus.exited 5).code).stderr)
  ∧ ((ExitStatus.exited 5).success = true →
      (runLoop cfgExec spawnSig [Except.ok "a"] 0 none).stderr
        = (runLoop cfgExec spawnSig [] 1 (ExitStatus.exited 5).code).stderr)
  ∧ (runLoop cfgExec spawnSig [Except.ok "a"] 0 none).result
      = (runLoop cfgExec spawnSig [] 1 (ExitStatus.exited 5).code).result := by
  have h := claim_C6 cfgExec spawnSig 0 none "a" [] (ExitStatus.exited 5) rfl rfl
  exact ⟨rfl, rfl, h.1, h.2.1, h.2.2⟩

/-- C7: Last Status starts unset and only the execute-and-record branch can
change it: a run that spawned nothing ends with it unset, hence it stays
unset for the whole of a dry-run session (which never spawns) and on empty
input. -/
theorem claim_C7 (cfg : Config) (spawn : Nat → Except LaunchErr ExitStatus)
    (input : List (Except DecodeErr String)) (ls : Option Int) :
    (pipeWhileRead cfg spawn []).result = LoopResult.done none
  ∧ ((pipeWhileRead cfg spawn input).spawns = [] →
      (pipeWhileRead cfg spawn input).result = LoopResult.done ls → ls = none)
  ∧ (cfg.dry_run = true → (pipeWhileRead cfg spawn input).spawns = [])
  ∧ (cfg.dry_run = true →
      (pipeWhileRead cfg spawn input).result = LoopResult.done ls → ls = none) := by
  refine ⟨rfl, ?_, ?_, ?_⟩
  · intro hsp hr
    exact runLoop_no_spawn_last cfg spawn input 0 none ls hsp hr
  · intro hd
    exact runLoop_dry_spawns_nil cfg spawn hd input 0 none
  · intro hd hr
    rw [pipeWhileRead] at hr
    rcases runLoop_dry_result cfg spawn hd input 0 none with hh | hh
    · rw [hr] at hh; simpa using hh
    · rw [hr] at hh; exact absurd hh (by simp)

/-- Witness for C7 on a one-line dry run. -/
theorem claim_C7_witness :
    (pipeWhileRead cfgDry spawnFail []).result = LoopResult.done none
  ∧ ((pipeWhileRead cfgDry spawnFail [Except.ok "a"]).spawns = [] →
      (pipeWhileRead cfgDry spawnFail [Except.ok "a"]).result = LoopResult.done none →
        (none : Option Int) = none)
  ∧ (cfgDry.dry_run = true →
      (pipeWhileRead cfgDry spawnFail [Except.ok "a"]).spawns = [])
  ∧ (cfgDry.dry_run = true →
      (pipeWhileRead cfgDry spawnFail [Except.ok "a"]).result = LoopResult.done none →
        (none : Option Int) = none) :=
  claim_C7 cfgDry spawnFail [Except.ok "a"] none

/-- C8: a dry run is a deterministic function of the input lines and the
invocation spec — its whole observable behaviour is identical across runs,
whatever the environment's spawn behaviour would have been, so two runs on
the same fixed input produce byte-identical output. -/
theorem claim_C8 (cfg : Config) (spawn₁ spawn₂ : Nat → Except LaunchErr ExitStatus)
    (input : List (Except DecodeErr String)) (hd : cfg.dry_run = true) :
    pipeWhileRead cfg spawn₁ input = pipeWhileRead cfg spawn₂ input :=
  runLoop_dry_spawn_irrel cfg spawn₁ spawn₂ hd input 0 none

/-- Witness for C8: the same dry run under two different environments. -/
theorem claim_C8_witness :
    cfgDry.dry_run = true
  ∧ pipeWhileRead cfgDry spawnOk [Except.ok "foo", Except.ok "bar"]
      = pipeWhileRead cfgDry spawnFail [Except.ok "foo", Except.ok "bar"] :=
  ⟨rfl, claim_C8 cfgDry spawnOk spawnFail [Except.ok "foo", Except.ok "bar"] rfl⟩

/-- C9, counterexample: the claim says any produced line ending in `'\r'`
has that `'\r'` stripped. A final chunk with no `'\n'` terminator keeps its
trailing `'\r'`: input `"a\r"` yields the line `"a\r"`, not `"a"`. -/
theorem claim_C9_counterexample :
    rustLines ['a', '\r'] = [['a', '\r']]
  ∧ rustLines ['a', '\r'] ≠ [['a']]
  ∧ (['a', '\r'] : List Char).getLast? = some '\r' := by
  refine ⟨rfl, ?_, rfl⟩
  decide

/-- C9 (amended): input is split on `'\n'`; a `'\n'`-terminated line has one
trailing `'\r'` stripped (CRLF handling), while the final chunk of input with
no trailing terminator is still yielded as one line, kept verbatim — a
trailing `'\r'` there is retained; stripping removes exactly the one
trailing `'\r'` and touches nothing else. -/
theorem claim_C9 (l rest : List Char) (hl : '\n' ∉ l) :
    rustLines (l ++ '\n' :: rest) = stripCR l :: rustLines rest
  ∧ (l ≠ [] → rustLines l = [l])
  ∧ rustLines [] = []
  ∧ (∀ m : List Char, stripCR (m ++ ['\r']) = m)
  ∧ (∀ m : List Char, '\r' ∉ m → stripCR m = m) :=
  ⟨rustLines_append l rest hl,
   fun hne => rustLines_no_newline l hl hne,
   rfl,
   stripCR_append_cr,
   stripCR_no_cr⟩

/-- Witness for C9 (amended) on the input `"a\r\nb"`. -/
theorem claim_C9_witness :
    rustLines (['a', '\r'] ++ '\n' :: ['b']) = stripCR ['a', '\r'] :: rustLines ['b']
  ∧ ((['a', '\r'] : List Char) ≠ [] → rustLines ['a', '\r'] = [['a', '\r']])
  ∧ rustLines [] = []
  ∧ (∀ m : List Char, stripCR (m ++ ['\r']) = m)
  ∧ (∀ m : List Char, '\r' ∉ m → stripCR m = m) :=
  claim_C9 ['a', '\r'] ['b'] (by decide)

/-- C10: with dry-run on, the launch-error branch is unreachable — over any
decoded input the run ends normally with exit code 0, writes nothing to
stderr, spawns nothing, and its behaviour does not depend on whether the
executable could have been launched. -/
theorem claim_C10 (cfg : Config) (spawn : Nat → Except LaunchErr ExitStatus)
    (lines : List String) (hd : cfg.dry_run = true) :
    (pipeWhileRead cfg spawn (lines.map Except.ok)).result = LoopResult.done none
  ∧ exitOf (pipeWhileRead cfg spawn (lines.map Except.ok)).result = ExitResult.code 0
  ∧ (pipeWhileRead cfg spawn (lines.map Except.ok)).stderr = []
  ∧ (pipeWhileRead cfg spawn (lines.map Except.ok)).spawns = []
  ∧ pipeWhileRead cfg spawn (lines.map Except.ok)
      = pipeWhileRead cfg spawnFail (lines.map Except.ok) := by
  have hm : pipeWhileRead cfg spawn (lines.map Except.ok)
      = ⟨lines.map (dryLine cfg.exe cfg.fixed_args), [], [], LoopResult.done none⟩ :=
    runLoop_dry_map cfg spawn hd lines 0 none
  refine ⟨?_, ?_, ?_, ?_, ?_⟩
  · rw [hm]
  · rw [hm]; rfl
  · rw [hm]
  · rw [hm]
  · exact runLoop_dry_spawn_irrel cfg spawn spawnFail hd (lines.map Except.ok) 0 none

/-- Witness for C10 on a one-line dry run against an oracle that can never
launch anything. -/
theorem claim_C10_witness :
    (pipeWhileRead cfgDry spawnOk (["a"].map Except.ok)).result = LoopResult.done none
  ∧ exitOf (pipeWhileRead cfgDry spawnOk (["a"].map Except.ok)).result
      = ExitResult.code 0
  ∧ (pipeWhileRead cfgDry spawnOk (["a"].map Except.ok)).stderr = []
  ∧ (pipeWhileRead cfgDry spawnOk (["a"].map Except.ok)).spawns = []
  ∧ pipeWhileRead cfgDry spawnOk (["a"].map Except.ok)
      = pipeWhileRead cfgDry spawnFail (["a"].map Except.ok) :=
  claim_C10 cfgDry spawnOk ["a"] rfl

end PipeWhileRead
